import Mathlib

/-
Verification of the admission-and-dispatch pipeline of the cortex.t miner
(src/miner/miner.py) against its natural-language specification.

The Python source is shallowly embedded: each relevant function becomes a
Lean definition over explicit data; network calls are abstracted to the data
they deliver (chunk lists, per-batch results); dict mutation becomes explicit
state passing; a caught Python exception becomes an explicit flag or a `none`
result.
-/

namespace CortexMiner

/-! ## Data model -/

/-- A chat message as carried by `synapse.messages`: a dict with a role, a
text content and an optional image reference. A missing or empty content or
image behaves the same under the truthiness checks of the source
(`message.get("content")`, `message.get("image")`). -/
structure Message where
  role : String
  content : String
  image : Option String
deriving DecidableEq, Repr

/-- Python truthiness of an optional string field: absent, and the empty
string, are both falsy. -/
def pyTruthyOpt (o : Option String) : Bool :=
  !(o.getD "").isEmpty

/-! ## Claude message translation (miner.py lines 278-310)

Embeds `generate_messages_to_claude`. The base64 image fetch
(`httpx.get(image_url)`) is boundary I/O; the block records the url the
fetch was issued for, the block structure and order being what matters. -/

/-- A content block of the Anthropic-style translated message: an image
block (source fetched from the recorded url and inlined) or a text block. -/
inductive ClaudeBlock where
  | imageBlock (url : String)
  | textBlock (t : String)
deriving DecidableEq, Repr

/-- A translated Anthropic-style message: role plus content blocks. -/
structure ClaudeMessage where
  role : String
  content : List ClaudeBlock
deriving DecidableEq, Repr

/-- Content blocks for one non-system message, as built in miner.py lines
285-309: the image block first (when the image field is truthy), then the
text block (when the content field is truthy). -/
def claudeContentBlocks (m : Message) : List ClaudeBlock :=
  (if pyTruthyOpt m.image then [ClaudeBlock.imageBlock (m.image.getD "")] else []) ++
  (if !m.content.isEmpty then [ClaudeBlock.textBlock m.content] else [])

/-- Translation of one non-system message. -/
def claudeMessageOf (m : Message) : ClaudeMessage :=
  { role := m.role, content := claudeContentBlocks m }

/-- Embeds `generate_messages_to_claude` (miner.py lines 278-310): one pass
over the messages; a message with role `system` is not appended to the
output list and its content overwrites the system prompt variable; every
other message is translated and appended. Returns
(filtered_messages, system_prompt). -/
def generateMessagesToClaude (messages : List Message) : List ClaudeMessage × Option String :=
  messages.foldl
    (fun acc m =>
      if m.role = "system" then (acc.1, some m.content)
      else (acc.1 ++ [claudeMessageOf m], acc.2))
    ([], none)

/-! ## OpenAI message translation (miner.py lines 323-348) -/

/-- A content block of the OpenAI-style translated message. -/
inductive OpenAIBlock where
  | textBlock (t : String)
  | imageUrlBlock (url : String)
deriving DecidableEq, Repr

/-- A translated OpenAI-style message. -/
structure OpenAIMessage where
  role : String
  content : List OpenAIBlock
deriving DecidableEq, Repr

/-- Embeds the OpenAI branch translation (miner.py lines 325-348):
`message = messages[0]` indexes the first message (raising IndexError on an
empty list, modelled as `none`) and builds a single-element message list
from it alone; the text block is appended first, then the image block. -/
def openAIFilteredMessages (messages : List Message) : Option (List OpenAIMessage) :=
  match messages with
  | [] => none
  | m :: _ =>
    some [{ role := m.role,
            content :=
              (if !m.content.isEmpty then [OpenAIBlock.textBlock m.content] else []) ++
              (if pyTruthyOpt m.image then [OpenAIBlock.imageUrlBlock (m.image.getD "")] else []) }]

/-! ## Stream dispatch (miner.py lines 312-626)

One send call on the outbound sink: the body bytes (as the string they
decode to) and the `more_body` flag. -/

/-- One observed `send` call on the outbound sink. -/
structure SendEvent where
  body : String
  more : Bool
deriving DecidableEq, Repr

/-- The empty terminating send `{"body": b'', "more_body": False}`. -/
def streamTerminator : SendEvent :=
  { body := "", more := false }

/-- Outcome of one provider branch of `_prompt`: the sends it performed, in
order, whether an exception escaped the branch (to be caught by the except
clause at miner.py line 622), and the error-log lines it wrote. -/
structure BranchOut where
  sends : List SendEvent
  raised : Bool
  errors : List String
deriving Repr

/-- Embeds the token-buffer loop of the OpenAI, Groq and Bedrock streaming
branches (miner.py lines 357-372, 478-493, 590-606): append each token to
the buffer; when the buffer length equals the flush size n, send the
concatenated buffer with `more_body=True` and reset it. Returns the sends
performed and the buffer left over when the chunk sequence ends. -/
def bufferFlushLoop (n : Nat) (buffer : List String) : List String → List SendEvent × List String
  | [] => ([], buffer)
  | tok :: rest =>
    let buffer2 := buffer ++ [tok]
    if buffer2.length = n then
      let r := bufferFlushLoop n [] rest
      ({ body := String.join buffer2, more := true } :: r.1, r.2)
    else
      bufferFlushLoop n buffer2 rest

/-- Embeds the OpenAI branch (miner.py lines 323-383). The upstream stream
is the list of `chunk.choices[0].delta.content` values (each possibly null,
coerced by `or ""`); `raises = true` means the stream raises after
producing its chunks. The flush size is the hard-coded `n = 1`. After the
loop, a leftover buffer (never present when n = 1) would be flushed with
`more_body=False`; an empty message list makes `messages[0]` raise before
any send. -/
def openAIBranch (messages : List Message) (chunks : List (Option String)) (raises : Bool) :
    BranchOut :=
  match openAIFilteredMessages messages with
  | none => { sends := [], raised := true, errors := [] }
  | some _filtered =>
    let toks := chunks.map fun c => c.getD ""
    let r := bufferFlushLoop 1 [] toks
    if raises then { sends := r.1, raised := true, errors := [] }
    else
      { sends := r.1 ++
          (if r.2.isEmpty then [] else [{ body := String.join r.2, more := false }]),
        raised := false, errors := [] }

/-- Embeds the Groq branch (miner.py lines 466-493): the same flush loop
with n = 1, but with no post-loop flush at all and no terminating send. -/
def groqBranch (chunks : List (Option String)) (raises : Bool) : BranchOut :=
  let toks := chunks.map fun c => c.getD ""
  let r := bufferFlushLoop 1 [] toks
  { sends := r.1, raised := raises, errors := [] }

/-- Embeds the AnthropicBedrock branch (miner.py lines 385-408): each
completion whose text is truthy is sent with `more_body=True`; after the
loop an explicit empty `more_body=False` send closes the stream (line 408).
A mid-stream raise skips that closing send. -/
def anthropicBedrockBranch (chunks : List String) (raises : Bool) : BranchOut :=
  let evs := (chunks.filter fun c => !c.isEmpty).map
    fun c => ({ body := c, more := true } : SendEvent)
  if raises then { sends := evs, raised := true, errors := [] }
  else { sends := evs ++ [streamTerminator], raised := false, errors := [] }

/-- Embeds the Anthropic branch (miner.py lines 410-435): the messages are
translated by `generate_messages_to_claude` for the upstream call; each
text of the text stream is sent with `more_body=True`; after the loop an
explicit empty `more_body=False` send closes the stream (line 435). -/
def anthropicBranch (messages : List Message) (chunks : List String) (raises : Bool) :
    BranchOut :=
  let _upstream := generateMessagesToClaude messages
  let evs := chunks.map fun c => ({ body := c, more := true } : SendEvent)
  if raises then { sends := evs, raised := true, errors := [] }
  else { sends := evs ++ [streamTerminator], raised := false, errors := [] }

/-- The upstream behaviour each provider branch would observe on this
dispatch: the chunk list its stream yields and whether the stream raises
after yielding them. The Gemini and Bedrock branches are not the subject of
any claim; their outcomes are carried opaquely. -/
structure Env where
  openaiChunks : List (Option String)
  openaiRaises : Bool
  abChunks : List String
  abRaises : Bool
  anthropicChunks : List String
  anthropicRaises : Bool
  geminiOut : BranchOut
  groqChunks : List (Option String)
  groqRaises : Bool
  bedrockOut : BranchOut

/-- Embeds the provider if/elif chain of `_prompt` (miner.py lines 323,
385, 410, 437, 466, 495, 619-620), in source order; an unknown provider
logs an error and performs no send. -/
def promptBody (provider : String) (messages : List Message) (env : Env) : BranchOut :=
  if provider = "OpenAI" then openAIBranch messages env.openaiChunks env.openaiRaises
  else if provider = "AnthropicBedrock" then anthropicBedrockBranch env.abChunks env.abRaises
  else if provider = "Anthropic" then
    anthropicBranch messages env.anthropicChunks env.anthropicRaises
  else if provider = "Gemini" then env.geminiOut
  else if provider = "Groq" then groqBranch env.groqChunks env.groqRaises
  else if provider = "Bedrock" then env.bedrockOut
  else { sends := [], raised := false, errors := ["Unknown provider: " ++ provider] }

/-- Embeds the try/except wrapping the whole `_prompt` body (miner.py lines
313, 622-623): an exception escaping a branch is caught and logged; the
sends already performed stand and nothing further is sent. -/
def promptHandler (provider : String) (messages : List Message) (env : Env) : BranchOut :=
  let b := promptBody provider messages env
  if b.raised then { sends := b.sends, raised := false, errors := b.errors ++ ["error in _prompt"] }
  else b

/-- Modelled from the spec: the streaming-response wrapper
(`synapse.create_streaming_response`, miner.py line 626, whose
implementation is repository code not under src/) drives the token streamer
against the transport send and then performs the implicit terminating send
(empty body, `more_body=False`) when the streamer returns; the spec records
this as the sink protocol being "terminated by exactly one emission with
more=false" with "implicit termination via the language iteration protocol
running out". The observed sink sequence of a dispatch is therefore the
sends of `_prompt` followed by that terminator. -/
def streamObserved (provider : String) (messages : List Message) (env : Env) : List SendEvent :=
  (promptHandler provider messages env).sends ++ [streamTerminator]

/-! ## Embedding batcher (miner.py lines 699-720) -/

/-- Python `text.strip()` is falsy exactly when every character of the text
is whitespace (in particular when the text is empty). -/
def isEmptyAfterStrip (s : String) : Bool :=
  s.toList.all Char.isWhitespace

/-- Recursion worker for `chunksOf`, with an explicit fuel argument so the
definition is structurally recursive and computes in the kernel. Each step
consumes at least the head element, so a fuel equal to the list length
never runs out. -/
def chunksOfAux (n : Nat) : Nat → List String → List (List String)
  | 0, _ => []
  | _, [] => []
  | fuel + 1, x :: xs => (x :: xs.take (n - 1)) :: chunksOfAux n fuel (xs.drop (n - 1))

/-- Embeds `batches = [texts[i:i + batch_size] for i in range(0, len(texts),
batch_size)]` (miner.py line 700): consecutive slices of at most
`batchSize` elements of the original list, meaningful for batchSize ≥ 1
(Python range raises for a zero step). -/
def chunksOf (n : Nat) (l : List String) : List (List String) :=
  chunksOfAux n l.length l

/-- Embeds the task-issuing loop (miner.py lines 701-710): each slice is
filtered by `text.strip()` truthiness and a call is issued only for slices
left non-empty (an empty slice is logged as skipped). These are the batches
actually sent upstream, in order. -/
def issuedBatches (texts : List String) (batchSize : Nat) : List (List String) :=
  ((chunksOf batchSize texts).map fun b => b.filter fun t => !isEmptyAfterStrip t).filter
    fun b => !b.isEmpty

/-- Embeds the aggregation loop (miner.py lines 712-720) over the gathered
per-batch results (`return_exceptions=True`): a result that is an exception
is logged and contributes nothing; a successful result contributes its
embedding vectors, in order, appended to the accumulator. -/
def collectEmbeddings {α : Type} (results : List (Except String (List α))) : List α :=
  results.foldl
    (fun acc r =>
      match r with
      | Except.error _ => acc
      | Except.ok embs => acc ++ embs)
    []

/-- Embeds `get_embeddings_in_batch` end to end (miner.py lines 699-720),
with the upstream embedding call abstracted as a function from a batch to
its result-or-error. -/
def getEmbeddingsInBatch {α : Type} (embed : List String → Except String (List α))
    (texts : List String) (batchSize : Nat) : List α :=
  collectEmbeddings ((issuedBatches texts batchSize).map embed)

/-- The vectors a gathered per-batch result contributes: its embedding list
for a success, nothing for a logged exception. -/
def okVectors {α : Type} : Except String (List α) → List α
  | Except.ok l => l
  | Except.error _ => []

/-! ## Admission controller (miner.py lines 125-168) -/

/-- State read and mutated by `base_blacklist`: the axon hotkeys of the
metagraph in uid order, the metagraph hotkey list, the stake list `S`
indexed like the hotkey list, and the per-hotkey request-timestamp windows
(`self.request_timestamps`, a missing key behaving as an empty deque). -/
structure MinerState where
  axonHotkeys : List String
  metaHotkeys : List String
  stakes : List Int
  ts : String → List Int

/-- Deployment constants consumed by `base_blacklist`:
`cortext.ALLOW_NON_REGISTERED`, `cortext.MIN_REQUEST_PERIOD` (minutes) and
`cortext.MAX_REQUESTS`. -/
structure BParams where
  allowNonRegistered : Bool
  minRequestPeriod : Int
  maxRequests : Nat

/-- Result of one `base_blacklist` call: the returned pair — `none` when an
exception was caught and the function fell off its end returning None — and
the request-timestamp map after the call. -/
structure BOut where
  result : Option (Bool × String)
  ts : String → List Int

/-- Rejection reason for a non-registered hotkey (miner.py line 137). -/
def nonRegisteredReason (synapseType hotkey : String) : String :=
  "Blacklisted a non registered hotkeys " ++ synapseType ++ " request from " ++ hotkey

/-- Rejection reason for a low-stake request (miner.py line 142). -/
def lowStakeReason (synapseType hotkey : String) (stake amt : Int) : String :=
  "Blacklisted a low stake " ++ synapseType ++ " request: " ++ toString stake ++ " < " ++
    toString amt ++ " from " ++ hotkey

/-- Rejection reason for an over-limit request rate, citing the observed
count and the configured limit (miner.py lines 158-160). -/
def rateLimitReason (hotkey : String) (count : Nat) (period : Int) (limit : Nat) : String :=
  "Request frequency for " ++ hotkey ++ " exceeded: " ++ toString count ++ " requests in " ++
    toString period ++ " minutes. Limit is " ++ toString limit ++ " requests."

/-- Acceptance reason (miner.py line 165). -/
def acceptReason (synapseType hotkey : String) : String :=
  "accepting " ++ synapseType ++ " request from " ++ hotkey

/-- Embeds the pruning loop (miner.py lines 151-152): pop from the front of
the window while the front timestamp is strictly older than the window. -/
def pruneOld (now timeWindow : Int) : List Int → List Int
  | [] => []
  | t :: rest => if now - t > timeWindow then pruneOld now timeWindow rest else t :: rest

/-- Embeds `base_blacklist` (miner.py lines 125-168). In order: uid lookup
over the axon hotkeys; non-registered rejection; stake lookup via
`self.metagraph.hotkeys.index(hotkey)` and `self.metagraph.S[...]` — either
lookup failing raises, is caught by the except clause at line 167, and the
function returns None (modelled as `result = none`); low-stake rejection;
lazy pruning of the window; rate rejection citing count and limit; append
of `now` and acceptance. -/
def baseBlacklist (st : MinerState) (p : BParams) (hotkey synapseType : String)
    (blacklistAmt : Int) (now : Int) : BOut :=
  let uid? := st.axonHotkeys.findIdx? fun a => a = hotkey
  if uid? = none ∧ p.allowNonRegistered = false then
    { result := some (true, nonRegisteredReason synapseType hotkey), ts := st.ts }
  else
    match st.metaHotkeys.findIdx? fun a => a = hotkey with
    | none => { result := none, ts := st.ts }
    | some i =>
      match st.stakes.get? i with
      | none => { result := none, ts := st.ts }
      | some stake =>
        if stake < blacklistAmt then
          { result := some (true, lowStakeReason synapseType hotkey stake blacklistAmt),
            ts := st.ts }
        else
          let timeWindow := p.minRequestPeriod * 60
          let w := pruneOld now timeWindow (st.ts hotkey)
          if p.maxRequests ≤ w.length then
            { result := some (true, rateLimitReason hotkey w.length p.minRequestPeriod
                p.maxRequests),
              ts := fun h => if h = hotkey then w else st.ts h }
          else
            { result := some (false, acceptReason synapseType hotkey),
              ts := fun h => if h = hotkey then w ++ [now] else st.ts h }

/-! ## Concrete instances used by witnesses and counterexamples -/

/-- An environment whose every provider stream yields no chunks and raises
nothing. -/
def emptyEnv : Env :=
  { openaiChunks := [], openaiRaises := false, abChunks := [], abRaises := false,
    anthropicChunks := [], anthropicRaises := false,
    geminiOut := { sends := [], raised := false, errors := [] },
    groqChunks := [], groqRaises := false,
    bedrockOut := { sends := [], raised := false, errors := [] } }

/-- A message list with two system messages around a user message. -/
def twoSystemMsgs : List Message :=
  [{ role := "system", content := "s1", image := none },
   { role := "user", content := "u", image := none },
   { role := "system", content := "s2", image := none }]

/-- A miner state with one hotkey that is registered, staked at 6000, and
has one recorded request timestamp. -/
def oneHotkeyState : MinerState :=
  { axonHotkeys := ["hk"], metaHotkeys := ["hk"], stakes := [6000], ts := fun _ => [0] }

/-- Deployment constants with a five-minute window and a one-request limit. -/
def oneRequestParams : BParams :=
  { allowNonRegistered := false, minRequestPeriod := 5, maxRequests := 1 }

/-- A miner state whose hotkey appears among the axon hotkeys but not in
the metagraph hotkey list, so the stake lookup
`self.metagraph.hotkeys.index(hotkey)` raises ValueError. -/
def axonOnlyState : MinerState :=
  { axonHotkeys := ["hk"], metaHotkeys := [], stakes := [], ts := fun _ => [] }

/-! ## Helper lemmas -/

theorem string_empty_append (s : String) : "" ++ s = s := by
  cases s
  rfl

theorem string_join_singleton (t : String) : String.join [t] = t := by
  show "" ++ t = t
  exact string_empty_append t

theorem getLast?_cons {α : Type} (a : α) (l : List α) :
    (a :: l).getLast? =
      match l.getLast? with
      | some c => some c
      | none => some a := by
  cases l with
  | nil => rfl
  | cons b t =>
    rw [List.getLast?_cons_cons]
    have h : ((b :: t).getLast?).isSome := by
      simp [List.getLast?_isSome]
    obtain ⟨c, hc⟩ := Option.isSome_iff_exists.mp h
    rw [hc]

theorem bufferFlushLoop_one (toks : List String) :
    bufferFlushLoop 1 [] toks = (toks.map fun t => { body := t, more := true }, []) := by
  induction toks with
  | nil => rfl
  | cons t rest ih =>
    simp [bufferFlushLoop, ih, string_join_singleton]

theorem openAIBranch_cons (m : Message) (ms : List Message) (chunks : List (Option String))
    (raises : Bool) :
    openAIBranch (m :: ms) chunks raises =
      { sends := chunks.map fun c => { body := c.getD "", more := true },
        raised := raises, errors := [] } := by
  cases raises <;>
    simp [openAIBranch, openAIFilteredMessages, bufferFlushLoop_one, List.map_map,
      Function.comp]

theorem groqBranch_eq (chunks : List (Option String)) (raises : Bool) :
    groqBranch chunks raises =
      { sends := chunks.map fun c => { body := c.getD "", more := true },
        raised := raises, errors := [] } := by
  simp [groqBranch, bufferFlushLoop_one, List.map_map, Function.comp]

theorem promptBody_openai (messages : List Message) (env : Env) :
    promptBody "OpenAI" messages env = openAIBranch messages env.openaiChunks env.openaiRaises := by
  unfold promptBody
  rw [if_pos rfl]

theorem promptBody_ab (messages : List Message) (env : Env) :
    promptBody "AnthropicBedrock" messages env =
      anthropicBedrockBranch env.abChunks env.abRaises := by
  unfold promptBody
  rw [if_neg (by decide), if_pos rfl]

theorem promptBody_anthropic (messages : List Message) (env : Env) :
    promptBody "Anthropic" messages env =
      anthropicBranch messages env.anthropicChunks env.anthropicRaises := by
  unfold promptBody
  rw [if_neg (by decide), if_neg (by decide), if_pos rfl]

theorem promptBody_groq (messages : List Message) (env : Env) :
    promptBody "Groq" messages env = groqBranch env.groqChunks env.groqRaises := by
  unfold promptBody
  rw [if_neg (by decide), if_neg (by decide), if_neg (by decide), if_neg (by decide),
    if_pos rfl]

theorem promptBody_unknown (p : String) (messages : List Message) (env : Env)
    (h1 : ¬p = "OpenAI") (h2 : ¬p = "AnthropicBedrock") (h3 : ¬p = "Anthropic")
    (h4 : ¬p = "Gemini") (h5 : ¬p = "Groq") (h6 : ¬p = "Bedrock") :
    promptBody p messages env =
      { sends := [], raised := false, errors := ["Unknown provider: " ++ p] } := by
  unfold promptBody
  rw [if_neg h1, if_neg h2, if_neg h3, if_neg h4, if_neg h5, if_neg h6]

theorem filter_not_more_of_all_true (l : List SendEvent) (h : ∀ e ∈ l, e.more = true) :
    ((l ++ [streamTerminator]).filter fun e => !e.more).length = 1 := by
  induction l with
  | nil => rfl
  | cons x xs ih =>
    have hx : x.more = true := h x (by simp)
    rw [List.cons_append, List.filter_cons]
    simp only [hx]
    exact ih fun e he => h e (by simp [he])

theorem mem_map_more_true {β : Type} (f : β → String) (l : List β)
    (e : SendEvent) (he : e ∈ l.map fun c => ({ body := f c, more := true } : SendEvent)) :
    e.more = true := by
  obtain ⟨c, _, rfl⟩ := List.mem_map.mp he
  rfl

theorem chunksOfAux_flatten (n : Nat) (fuel : Nat) (l : List String)
    (h : l.length ≤ fuel) : (chunksOfAux n fuel l).flatten = l := by
  induction fuel generalizing l with
  | zero =>
    cases l with
    | nil => rfl
    | cons x xs => simp at h
  | succ fuel ih =>
    cases l with
    | nil => rfl
    | cons x xs =>
      have hlen : (xs.drop (n - 1)).length ≤ fuel := by
        simp only [List.length_drop]
        simp only [List.length_cons] at h
        omega
      simp only [chunksOfAux, List.flatten_cons, ih _ hlen]
      rw [List.cons_append, List.take_append_drop]

theorem chunksOf_flatten (n : Nat) (l : List String) : (chunksOf n l).flatten = l :=
  chunksOfAux_flatten n l.length l (Nat.le_refl _)

theorem chunksOfAux_length_le (n : Nat) (hn : 1 ≤ n) (fuel : Nat) (l : List String)
    (b : List String) (hb : b ∈ chunksOfAux n fuel l) : b.length ≤ n := by
  induction fuel generalizing l with
  | zero => simp [chunksOfAux] at hb
  | succ fuel ih =>
    cases l with
    | nil => simp [chunksOfAux] at hb
    | cons x xs =>
      simp only [chunksOfAux, List.mem_cons] at hb
      cases hb with
      | inl hb =>
        subst hb
        simp only [List.length_cons, List.length_take]
        omega
      | inr hb => exact ih _ hb

theorem flatten_filter_nonempty {α : Type} (l : List (List α)) :
    (l.filter fun b => !b.isEmpty).flatten = l.flatten := by
  induction l with
  | nil => rfl
  | cons b rest ih =>
    cases b with
    | nil => simpa using ih
    | cons x xs => simp [List.filter_cons, ih]

theorem flatten_map_filter {α : Type} (p : α → Bool) (l : List (List α)) :
    (l.map fun b => b.filter p).flatten = l.flatten.filter p := by
  induction l with
  | nil => rfl
  | cons b rest ih =>
    simp only [List.map_cons, List.flatten_cons, List.filter_append, ih]

theorem collectEmbeddings_foldl {α : Type} (l : List (Except String (List α)))
    (acc : List α) :
    l.foldl
        (fun acc r =>
          match r with
          | Except.error _ => acc
          | Except.ok embs => acc ++ embs)
        acc = acc ++ (l.map okVectors).flatten := by
  induction l generalizing acc with
  | nil => simp
  | cons r rest ih =>
    cases r with
    | error e => simp [List.foldl_cons, ih, okVectors]
    | ok embs => simp [List.foldl_cons, ih, okVectors]

theorem collectEmbeddings_eq {α : Type} (l : List (Except String (List α))) :
    collectEmbeddings l = (l.map okVectors).flatten := by
  unfold collectEmbeddings
  rw [collectEmbeddings_foldl]
  simp

theorem gmtc_foldl (messages : List Message) (acc : List ClaudeMessage)
    (sys : Option String) :
    messages.foldl
        (fun acc m =>
          if m.role = "system" then (acc.1, some m.content)
          else (acc.1 ++ [claudeMessageOf m], acc.2))
        (acc, sys) =
      (acc ++ (messages.filter fun m => !(m.role == "system")).map claudeMessageOf,
       match ((messages.filter fun m => m.role == "system").map Message.content).getLast? with
       | some c => some c
       | none => sys) := by
  induction messages generalizing acc sys with
  | nil => simp
  | cons m rest ih =>
    by_cases hm : m.role = "system"
    · have h1 : ((m :: rest).filter fun x => !(x.role == "system")) =
          rest.filter fun x => !(x.role == "system") := by
        simp [List.filter_cons, hm]
      have h2 : ((m :: rest).filter fun x => x.role == "system") =
          m :: rest.filter fun x => x.role == "system" := by
        simp [List.filter_cons, hm]
      rw [List.foldl_cons, if_pos hm, ih, h1, h2]
      simp only [List.map_cons]
      rw [getLast?_cons]
      cases ((rest.filter fun x => x.role == "system").map Message.content).getLast? with
      | none => rfl
      | some c => rfl
    · have h1 : ((m :: rest).filter fun x => !(x.role == "system")) =
          m :: rest.filter fun x => !(x.role == "system") := by
        simp [List.filter_cons, hm]
      have h2 : ((m :: rest).filter fun x => x.role == "system") =
          rest.filter fun x => x.role == "system" := by
        simp [List.filter_cons, hm]
      rw [List.foldl_cons, if_neg hm, ih, h1, h2]
      simp [List.append_assoc]

theorem pruneOld_all_old (now timeWindow : Int) (l : List Int)
    (h : ∀ t ∈ l, now - t > timeWindow) : pruneOld now timeWindow l = [] := by
  induction l with
  | nil => rfl
  | cons t rest ih =>
    rw [pruneOld, if_pos (h t (by simp))]
    exact ih fun u hu => h u (by simp [hu])

/-! ## Claim theorems -/

/-- Claim C1: for a streaming dispatch with flush size 1 (the hard-coded
`n = 1` of the OpenAI and Groq branches) whose provider stream yields the
chunks a, b, c, the sink observes exactly the sends (a, more=true),
(b, more=true), (c, more=true) in order followed by exactly one
(empty, more=false) send — the last coming from the spec-modelled
streaming-response wrapper, since with n = 1 the post-loop flush of the
branch itself never fires. -/
theorem C1_flush_size_one_framing (a b c : String) (m : Message)
    (ms ms2 : List Message) (ac : List String) (ar : Bool) (nc : List String)
    (nr : Bool) (g bo : BranchOut) (oc gc : List (Option String)) (ob gb : Bool) :
    streamObserved "OpenAI" (m :: ms)
        ⟨[some a, some b, some c], false, ac, ar, nc, nr, g, gc, gb, bo⟩ =
      [{ body := a, more := true }, { body := b, more := true },
       { body := c, more := true }, streamTerminator] ∧
    streamObserved "Groq" ms2
        ⟨oc, ob, ac, ar, nc, nr, g, [some a, some b, some c], false, bo⟩ =
      [{ body := a, more := true }, { body := b, more := true },
       { body := c, more := true }, streamTerminator] := by
  constructor
  · simp [streamObserved, promptHandler, promptBody_openai, openAIBranch_cons]
  · simp [streamObserved, promptHandler, promptBody_groq, groqBranch_eq]

/-- Claim C2: for a dispatch whose provider stream raises mid-stream after
emitting tokens, every send performed inside the erroring branch carried
more=true and the observed sequence still ends with exactly one terminating
(empty, more=false) send — performed by the spec-modelled
streaming-response wrapper after the except clause at miner.py line 622
swallows the error — so the stream never hangs without termination. Stated
for all four modelled branches (OpenAI after an initial token a, Groq,
AnthropicBedrock and Anthropic). -/
theorem C2_midstream_error_still_terminates (a : String) (cs gcs : List (Option String))
    (abCs anCs : List String) (m : Message) (ms ms2 ms3 ms4 : List Message)
    (g bo : BranchOut) (oc : List (Option String)) (ob : Bool) (acl : List String)
    (ar : Bool) (ncl : List String) (nr : Bool) (gc2 : List (Option String)) (gb2 : Bool) :
    streamObserved "OpenAI" (m :: ms)
        ⟨some a :: cs, true, acl, ar, ncl, nr, g, gc2, gb2, bo⟩ =
      ({ body := a, more := true } ::
          cs.map fun c => { body := c.getD "", more := true }) ++ [streamTerminator] ∧
    ((streamObserved "OpenAI" (m :: ms)
        ⟨some a :: cs, true, acl, ar, ncl, nr, g, gc2, gb2, bo⟩).filter
          fun e => !e.more).length = 1 ∧
    streamObserved "Groq" ms2 ⟨oc, ob, acl, ar, ncl, nr, g, gcs, true, bo⟩ =
      (gcs.map fun c => { body := c.getD "", more := true }) ++ [streamTerminator] ∧
    ((streamObserved "Groq" ms2 ⟨oc, ob, acl, ar, ncl, nr, g, gcs, true, bo⟩).filter
        fun e => !e.more).length = 1 ∧
    streamObserved "AnthropicBedrock" ms3
        ⟨oc, ob, abCs, true, ncl, nr, g, gc2, gb2, bo⟩ =
      ((abCs.filter fun c => !c.isEmpty).map fun c => { body := c, more := true }) ++
        [streamTerminator] ∧
    ((streamObserved "AnthropicBedrock" ms3
        ⟨oc, ob, abCs, true, ncl, nr, g, gc2, gb2, bo⟩).filter
          fun e => !e.more).length = 1 ∧
    streamObserved "Anthropic" ms4 ⟨oc, ob, acl, ar, anCs, true, g, gc2, gb2, bo⟩ =
      (anCs.map fun c => { body := c, more := true }) ++ [streamTerminator] ∧
    ((streamObserved "Anthropic" ms4
        ⟨oc, ob, acl, ar, anCs, true, g, gc2, gb2, bo⟩).filter
          fun e => !e.more).length = 1 := by
  have hopen : streamObserved "OpenAI" (m :: ms)
      ⟨some a :: cs, true, acl, ar, ncl, nr, g, gc2, gb2, bo⟩ =
      ({ body := a, more := true } ::
          cs.map fun c => { body := c.getD "", more := true }) ++ [streamTerminator] := by
    simp [streamObserved, promptHandler, promptBody_openai, openAIBranch_cons]
  have hgroq : streamObserved "Groq" ms2 ⟨oc, ob, acl, ar, ncl, nr, g, gcs, true, bo⟩ =
      (gcs.map fun c => { body := c.getD "", more := true }) ++ [streamTerminator] := by
    simp [streamObserved, promptHandler, promptBody_groq, groqBranch_eq]
  have hab : streamObserved "AnthropicBedrock" ms3
      ⟨oc, ob, abCs, true, ncl, nr, g, gc2, gb2, bo⟩ =
      ((abCs.filter fun c => !c.isEmpty).map fun c => { body := c, more := true }) ++
        [streamTerminator] := by
    simp [streamObserved, promptHandler, promptBody_ab, anthropicBedrockBranch]
  have han : streamObserved "Anthropic" ms4
      ⟨oc, ob, acl, ar, anCs, true, g, gc2, gb2, bo⟩ =
      (anCs.map fun c => { body := c, more := true }) ++ [streamTerminator] := by
    simp [streamObserved, promptHandler, promptBody_anthropic, anthropicBranch]
  refine ⟨hopen, ?_, hgroq, ?_, hab, ?_, han, ?_⟩
  · rw [hopen]
    exact filter_not_more_of_all_true _ fun e he => by
      rcases List.mem_cons.mp he with h | h
      · subst h; rfl
      · exact mem_map_more_true (fun c => c.getD "") cs e h
  · rw [hgroq]
    exact filter_not_more_of_all_true _ fun e he =>
      mem_map_more_true (fun c => c.getD "") gcs e he
  · rw [hab]
    exact filter_not_more_of_all_true _ fun e he =>
      mem_map_more_true (fun c => c) (abCs.filter fun c => !c.isEmpty) e he
  · rw [han]
    exact filter_not_more_of_all_true _ fun e he =>
      mem_map_more_true (fun c => c) anCs e he

/-- Claim C7, counterexample: a zero-chunk dispatch on the cited
AnthropicBedrock branch produces two (empty, more=false) sends — the
explicit closing send of miner.py line 408 plus the wrapper terminator —
not exactly one. -/
theorem C7_counterexample :
    streamObserved "AnthropicBedrock" [] emptyEnv = [streamTerminator, streamTerminator] ∧
    ((streamObserved "AnthropicBedrock" [] emptyEnv).filter fun e => !e.more).length = 2 := by
  constructor
  · rfl
  · rfl

/-- Claim C7 as amended: for a dispatch whose provider produces zero
chunks, the sink never observes zero emissions and every observed send is
the empty more=false terminator; the buffered OpenAI branch yields exactly
one such send (the wrapper terminator), while the AnthropicBedrock branch
also performs its own explicit closing send and therefore yields two. -/
theorem C7_zero_chunks_termination (m : Message) (ms ms2 ms3 : List Message)
    (p3 : String) (env3 : Env) (acl : List String) (ar : Bool) (ncl : List String)
    (nr : Bool) (g bo : BranchOut) (oc gc : List (Option String)) (ob gb : Bool) :
    streamObserved "OpenAI" (m :: ms) ⟨[], false, acl, ar, ncl, nr, g, gc, gb, bo⟩ =
      [streamTerminator] ∧
    streamObserved "AnthropicBedrock" ms2 ⟨oc, ob, [], false, ncl, nr, g, gc, gb, bo⟩ =
      [streamTerminator, streamTerminator] ∧
    0 < (streamObserved p3 ms3 env3).length := by
  refine ⟨?_, ?_, ?_⟩
  · simp [streamObserved, promptHandler, promptBody_openai, openAIBranch_cons]
  · simp [streamObserved, promptHandler, promptBody_ab, anthropicBedrockBranch,
      streamTerminator]
  · simp [streamObserved]

/-- Claim C9: a dispatch whose requested provider name is none of the six
known names performs no send of its own — the sink observes only the
spec-modelled wrapper terminator — and the unknown-provider error of
miner.py line 620 is logged; nothing retries. -/
theorem C9_unknown_provider (p : String) (messages : List Message) (env : Env)
    (h1 : ¬p = "OpenAI") (h2 : ¬p = "AnthropicBedrock") (h3 : ¬p = "Anthropic")
    (h4 : ¬p = "Gemini") (h5 : ¬p = "Groq") (h6 : ¬p = "Bedrock") :
    streamObserved p messages env = [streamTerminator] ∧
    (promptHandler p messages env).errors = ["Unknown provider: " ++ p] := by
  have hb := promptBody_unknown p messages env h1 h2 h3 h4 h5 h6
  constructor
  · simp [streamObserved, promptHandler, hb]
  · simp [promptHandler, hb]

/-- Claim C9 witness: the concrete unknown provider name Stability. -/
theorem C9_unknown_provider_witness :
    ¬"Stability" = "OpenAI" ∧ ¬"Stability" = "AnthropicBedrock" ∧
    ¬"Stability" = "Anthropic" ∧ ¬"Stability" = "Gemini" ∧ ¬"Stability" = "Groq" ∧
    ¬"Stability" = "Bedrock" ∧
    (streamObserved "Stability" [] emptyEnv = [streamTerminator] ∧
      (promptHandler "Stability" [] emptyEnv).errors = ["Unknown provider: " ++ "Stability"]) :=
  ⟨by decide, by decide, by decide, by decide, by decide, by decide,
    C9_unknown_provider "Stability" [] emptyEnv (by decide) (by decide) (by decide)
      (by decide) (by decide) (by decide)⟩

/-- Claim C10: the OpenAI branch translates only the first message of the
ordered message list — the translation of any non-empty list equals the
translation of its head alone, and the upstream message list always has
exactly one element — so every subsequent message is silently dropped from
the upstream call. -/
theorem C10_openai_first_message_only (m : Message) (rest : List Message) :
    openAIFilteredMessages (m :: rest) = openAIFilteredMessages [m] ∧
    ((openAIFilteredMessages (m :: rest)).getD []).length = 1 := by
  constructor
  · rfl
  · rfl

/-- Claim C4, counterexample: on the message list [system s1, user u,
system s2] the system prompt extracted by generate_messages_to_claude is
s2 — the last system message, not the first — and the translated message
list holds only the user message: the later system message was not kept as
a regular message. -/
theorem C4_counterexample :
    (generateMessagesToClaude twoSystemMsgs).2 = some "s2" ∧
    (generateMessagesToClaude twoSystemMsgs).1 =
      [{ role := "user", content := [ClaudeBlock.textBlock "u"] }] := by
  constructor
  · rfl
  · rfl

/-- Claim C4 as amended: every system message is removed from the
translated message list (the non-system messages are translated in order),
and the system prompt honored is the content of the last system message
encountered — each later system message silently overwrites the earlier
ones. -/
theorem C4_amended_last_system_wins (messages : List Message) :
    (generateMessagesToClaude messages).1 =
      (messages.filter fun m => !(m.role == "system")).map claudeMessageOf ∧
    (generateMessagesToClaude messages).2 =
      ((messages.filter fun m => m.role == "system").map Message.content).getLast? := by
  unfold generateMessagesToClaude
  rw [gmtc_foldl]
  constructor
  · simp
  · cases ((messages.filter fun m => m.role == "system").map Message.content).getLast? with
    | none => rfl
    | some c => rfl

/-- Claim C3, counterexample: for the texts [x, empty, blank, y, z] with
batch size 2, the issued batches are [[x], [y], [z]] — the code slices
first and filters inside each slice (miner.py lines 700-703) — not the
[[x, y], [z]] that filtering before partitioning would give. -/
theorem C3_counterexample :
    issuedBatches ["x", "", "  ", "y", "z"] 2 = [["x"], ["y"], ["z"]] ∧
    [["x"], ["y"], ["z"]] ≠ [["x", "y"], ["z"]] := by
  constructor
  · rfl
  · decide

/-- Claim C3 as amended: the embedding batcher first partitions the
original text list into consecutive slices of at most batchSize and then
filters empty/whitespace-only strings inside each slice, skipping slices
left empty; the surviving texts keep their relative order (the issued
batches concatenate to the order-preserving filter of the input), every
issued batch has at most batchSize texts, and the example [x, empty,
blank, y, z] with batchSize 2 issues [[x], [y], [z]]. -/
theorem C3_amended_partition_then_filter (texts : List String) (n : Nat) (h : 1 ≤ n) :
    (issuedBatches texts n).flatten = texts.filter (fun t => !isEmptyAfterStrip t) ∧
    (issuedBatches texts n).all (fun b => b.length ≤ n) = true ∧
    issuedBatches ["x", "", "  ", "y", "z"] 2 = [["x"], ["y"], ["z"]] := by
  refine ⟨?_, ?_, rfl⟩
  · unfold issuedBatches
    rw [flatten_filter_nonempty, flatten_map_filter, chunksOf_flatten]
  · rw [List.all_eq_true]
    intro b hb
    unfold issuedBatches at hb
    have hb2 := List.mem_of_mem_filter hb
    obtain ⟨c, hc, rfl⟩ := List.mem_map.mp hb2
    have hlen : c.length ≤ n := chunksOfAux_length_le n h texts.length texts c hc
    simp only [decide_eq_true_eq]
    exact le_trans (List.length_filter_le _ c) hlen

/-- Claim C3 witness: the amended statement at the example input with batch
size 2. -/
theorem C3_amended_partition_then_filter_witness :
    (1 : Nat) ≤ 2 ∧
    ((issuedBatches ["x", "", "  ", "y", "z"] 2).flatten =
        (["x", "", "  ", "y", "z"].filter fun t => !isEmptyAfterStrip t) ∧
      (issuedBatches ["x", "", "  ", "y", "z"] 2).all (fun b => b.length ≤ 2) = true ∧
      issuedBatches ["x", "", "  ", "y", "z"] 2 = [["x"], ["y"], ["z"]]) :=
  ⟨by decide, C3_amended_partition_then_filter ["x", "", "  ", "y", "z"] 2 (by decide)⟩

/-- Claim C8: the embedding aggregation is exactly the concatenation, in
batch order, of the vectors of the successful batches, with intra-batch
order preserved (each success contributes its vector list unchanged); a
failed batch contributes zero vectors and never disturbs its sibling
batches — removing an error result leaves the collected output of the
remaining results unchanged; the end-to-end batcher result is that
concatenation over the issued batches. -/
theorem C8_partial_batch_failure_policy {α : Type}
    (results pre post : List (Except String (List α))) (e : String)
    (embed : List String → Except String (List α)) (texts : List String) (n : Nat) :
    collectEmbeddings results = (results.map okVectors).flatten ∧
    collectEmbeddings (pre ++ Except.error e :: post) =
      collectEmbeddings pre ++ collectEmbeddings post ∧
    getEmbeddingsInBatch embed texts n =
      (((issuedBatches texts n).map embed).map okVectors).flatten := by
  refine ⟨collectEmbeddings_eq results, ?_, collectEmbeddings_eq _⟩
  rw [collectEmbeddings_eq, collectEmbeddings_eq, collectEmbeddings_eq]
  simp [okVectors]

/-- Claim C5: once the registration and stake gates pass, the rate check
prunes the identity window lazily and then: if the remaining count reaches
the limit, it rejects with the reason citing that count and the limit and
appends nothing (the window keeps only the pruned timestamps); otherwise it
appends now and admits — the append happens exactly when admission
succeeds — and once every recorded timestamp has aged out of the window a
later request is admitted again. -/
theorem C5_sliding_window_rate_limit (st : MinerState) (p : BParams)
    (hotkey synapseType : String) (blacklistAmt : Int) (now now2 : Int) (i : Nat)
    (stake : Int)
    (hreg : ¬((st.axonHotkeys.findIdx? fun a => a = hotkey) = none ∧
      p.allowNonRegistered = false))
    (hidx : (st.metaHotkeys.findIdx? fun a => a = hotkey) = some i)
    (hstake : st.stakes.get? i = some stake)
    (hge : ¬stake < blacklistAmt) :
    (p.maxRequests ≤ (pruneOld now (p.minRequestPeriod * 60) (st.ts hotkey)).length →
      (baseBlacklist st p hotkey synapseType blacklistAmt now).result =
        some (true, rateLimitReason hotkey
          (pruneOld now (p.minRequestPeriod * 60) (st.ts hotkey)).length
          p.minRequestPeriod p.maxRequests) ∧
      (baseBlacklist st p hotkey synapseType blacklistAmt now).ts hotkey =
        pruneOld now (p.minRequestPeriod * 60) (st.ts hotkey)) ∧
    ((pruneOld now (p.minRequestPeriod * 60) (st.ts hotkey)).length < p.maxRequests →
      (baseBlacklist st p hotkey synapseType blacklistAmt now).result =
        some (false, acceptReason synapseType hotkey) ∧
      (baseBlacklist st p hotkey synapseType blacklistAmt now).ts hotkey =
        pruneOld now (p.minRequestPeriod * 60) (st.ts hotkey) ++ [now]) ∧
    ((baseBlacklist st p hotkey synapseType blacklistAmt now).result =
        some (false, acceptReason synapseType hotkey) ↔
      (baseBlacklist st p hotkey synapseType blacklistAmt now).ts hotkey =
        pruneOld now (p.minRequestPeriod * 60) (st.ts hotkey) ++ [now]) ∧
    ((∀ t ∈ (baseBlacklist st p hotkey synapseType blacklistAmt now).ts hotkey,
        now2 - t > p.minRequestPeriod * 60) → 0 < p.maxRequests →
      (baseBlacklist
          { axonHotkeys := st.axonHotkeys, metaHotkeys := st.metaHotkeys,
            stakes := st.stakes,
            ts := (baseBlacklist st p hotkey synapseType blacklistAmt now).ts }
          p hotkey synapseType blacklistAmt now2).result =
        some (false, acceptReason synapseType hotkey)) := by
  have hred : baseBlacklist st p hotkey synapseType blacklistAmt now =
      (if p.maxRequests ≤ (pruneOld now (p.minRequestPeriod * 60) (st.ts hotkey)).length then
        { result := some (true, rateLimitReason hotkey
            (pruneOld now (p.minRequestPeriod * 60) (st.ts hotkey)).length
            p.minRequestPeriod p.maxRequests),
          ts := fun h =>
            if h = hotkey then pruneOld now (p.minRequestPeriod * 60) (st.ts hotkey)
            else st.ts h }
      else
        { result := some (false, acceptReason synapseType hotkey),
          ts := fun h =>
            if h = hotkey then pruneOld now (p.minRequestPeriod * 60) (st.ts hotkey) ++ [now]
            else st.ts h }) := by
    unfold baseBlacklist
    rw [if_neg hreg]
    simp only [hidx, hstake]
    rw [if_neg hge]
  refine ⟨?_, ?_, ?_, ?_⟩
  · intro hle
    rw [hred, if_pos hle]
    exact ⟨rfl, by simp⟩
  · intro hlt
    rw [hred, if_neg (not_le.mpr hlt)]
    exact ⟨rfl, by simp⟩
  · by_cases hle :
      p.maxRequests ≤ (pruneOld now (p.minRequestPeriod * 60) (st.ts hotkey)).length
    · rw [hred, if_pos hle]
      constructor
      · intro hcontr
        simp at hcontr
      · intro hcontr
        simp only [if_pos rfl] at hcontr
        have hlen := congrArg List.length hcontr
        simp at hlen
    · rw [hred, if_neg hle]
      exact ⟨fun _ => by simp, fun _ => rfl⟩
  · intro hall hpos
    generalize hg : (baseBlacklist st p hotkey synapseType blacklistAmt now).ts = ts2 at hall ⊢
    have hprune : pruneOld now2 (p.minRequestPeriod * 60) (ts2 hotkey) = [] :=
      pruneOld_all_old _ _ _ hall
    unfold baseBlacklist
    dsimp only
    rw [if_neg hreg]
    simp only [hidx, hstake]
    rw [if_neg hge, hprune]
    simp only [List.length_nil]
    rw [if_neg (Nat.not_le.mpr hpos)]

/-- Claim C5 witness: one registered hotkey staked at 6000 against a
threshold of 5000, a five-minute window holding one timestamp, a limit of
one request, evaluated at time 100 and again at time 1000. -/
theorem C5_sliding_window_rate_limit_witness :
    (¬((oneHotkeyState.axonHotkeys.findIdx? fun a => a = "hk") = none ∧
      oneRequestParams.allowNonRegistered = false)) ∧
    (oneHotkeyState.metaHotkeys.findIdx? fun a => a = "hk") = some 0 ∧
    oneHotkeyState.stakes.get? 0 = some 6000 ∧
    (¬(6000 : Int) < 5000) ∧
    ((oneRequestParams.maxRequests ≤
        (pruneOld 100 (oneRequestParams.minRequestPeriod * 60)
          (oneHotkeyState.ts "hk")).length →
      (baseBlacklist oneHotkeyState oneRequestParams "hk" "StreamPrompting" 5000 100).result =
        some (true, rateLimitReason "hk"
          (pruneOld 100 (oneRequestParams.minRequestPeriod * 60)
            (oneHotkeyState.ts "hk")).length
          oneRequestParams.minRequestPeriod oneRequestParams.maxRequests) ∧
      (baseBlacklist oneHotkeyState oneRequestParams "hk" "StreamPrompting" 5000 100).ts "hk" =
        pruneOld 100 (oneRequestParams.minRequestPeriod * 60) (oneHotkeyState.ts "hk")) ∧
    ((pruneOld 100 (oneRequestParams.minRequestPeriod * 60)
        (oneHotkeyState.ts "hk")).length < oneRequestParams.maxRequests →
      (baseBlacklist oneHotkeyState oneRequestParams "hk" "StreamPrompting" 5000 100).result =
        some (false, acceptReason "StreamPrompting" "hk") ∧
      (baseBlacklist oneHotkeyState oneRequestParams "hk" "StreamPrompting" 5000 100).ts "hk" =
        pruneOld 100 (oneRequestParams.minRequestPeriod * 60) (oneHotkeyState.ts "hk") ++
          [100]) ∧
    ((baseBlacklist oneHotkeyState oneRequestParams "hk" "StreamPrompting" 5000 100).result =
        some (false, acceptReason "StreamPrompting" "hk") ↔
      (baseBlacklist oneHotkeyState oneRequestParams "hk" "StreamPrompting" 5000 100).ts "hk" =
        pruneOld 100 (oneRequestParams.minRequestPeriod * 60) (oneHotkeyState.ts "hk") ++
          [100]) ∧
    ((∀ t ∈ (baseBlacklist oneHotkeyState oneRequestParams "hk" "StreamPrompting"
        5000 100).ts "hk", 1000 - t > oneRequestParams.minRequestPeriod * 60) →
      0 < oneRequestParams.maxRequests →
      (baseBlacklist
          { axonHotkeys := oneHotkeyState.axonHotkeys,
            metaHotkeys := oneHotkeyState.metaHotkeys,
            stakes := oneHotkeyState.stakes,
            ts := (baseBlacklist oneHotkeyState oneRequestParams "hk" "StreamPrompting"
              5000 100).ts }
          oneRequestParams "hk" "StreamPrompting" 5000 1000).result =
        some (false, acceptReason "StreamPrompting" "hk"))) :=
  ⟨by decide, by decide, by decide, by decide,
    C5_sliding_window_rate_limit oneHotkeyState oneRequestParams "hk" "StreamPrompting"
      5000 100 1000 0 6000 (by decide) (by decide) (by decide) (by decide)⟩

/-- Claim C6 (evaluation of the code bug): when the hotkey appears among
the axon hotkeys but not in the metagraph hotkey list, the stake lookup
raises, the except clause at miner.py line 167 logs it, and the function
falls off its end — base_blacklist returns None rather than a reject
decision, and the caller subscripting the result then crashes. -/
theorem C6_exception_returns_no_decision :
    (baseBlacklist axonOnlyState oneRequestParams "hk" "StreamPrompting" 5000 100).result =
      none := by
  rfl

end CortexMiner
